import Mathlib

/-!
Shallow embedding of the census-data refinement pipeline in
src/notebooks/refine.py (function refine_data and its helper is_admissible).

The post-load part of refine_data is modelled as pure functions on a
Dataset value: a header (list of column names) together with a list of
rows, each row a list of cells.  A cell is missing (NaN / pandas NA), a
number (a rational, standing for the float/Int64 values pandas holds), or
a string.  An uncaught Python exception escaping refine_data is modelled
as an `Except.error` carrying the exception name; the `sys.exit(1)` paths
of the Loader (file-not-found, JSON decode errors) are outside this
embedding, which starts after both inputs are loaded.

Simplifications, noted where they matter: numeric-string parsing models
pandas `to_numeric` on signed decimal literals (no exponent notation, no
surrounding whitespace), and Python `int()` on signed digit strings; the
column-wise `astype('Int64')` failure modelled is the cast of a
non-integral numeric value, which pandas rejects and the script's
`except` clause answers by leaving the column unmodified.
-/

namespace Refine

/-- Equality of `Except` results is decidable componentwise; the library
does not provide this instance, concrete runs of the model need it. -/
instance {ε α : Type} [DecidableEq ε] [DecidableEq α] : DecidableEq (Except ε α) := fun x y =>
  match x, y with
  | Except.error a, Except.error b =>
    if h : a = b then Decidable.isTrue (by rw [h])
    else Decidable.isFalse (fun hc => h (Except.error.inj hc))
  | Except.ok a, Except.ok b =>
    if h : a = b then Decidable.isTrue (by rw [h])
    else Decidable.isFalse (fun hc => h (Except.ok.inj hc))
  | Except.error _, Except.ok _ => Decidable.isFalse (fun hc => Except.noConfusion hc)
  | Except.ok _, Except.error _ => Decidable.isFalse (fun hc => Except.noConfusion hc)

/-- A cell of the loaded table: missing (NaN/NA), a number, or a string. -/
inductive Value where
  | na : Value
  | num : Rat → Value
  | str : String → Value
deriving DecidableEq

/-- A row of the table, in header order. -/
abbrev Row := List Value

/-- The in-memory table: named, ordered columns and a list of rows. -/
structure Dataset where
  cols : List String
  rows : List Row
deriving DecidableEq

/-- Position of a column name in a header, counting from 0; length of the
list when the name is absent (matching `List.indexOf`). -/
def colIdx : List String → String → Nat
  | [], _ => 0
  | c :: cs, name => if c = name then 0 else colIdx cs name + 1

/-- The cells of one named column, top to bottom (pandas `df[col]`).
Cells a row does not reach default to missing. -/
def getCol (d : Dataset) (c : String) : List Value :=
  d.rows.map (fun r => r.getD (colIdx d.cols c) Value.na)

/-- Column assignment `df[name] = vals`: overwrite the column in place when
the name exists, otherwise append it as a new last column. -/
def setCol (d : Dataset) (name : String) (vals : List Value) : Dataset :=
  if name ∈ d.cols then
    { d with rows := List.zipWith (fun r v => r.set (colIdx d.cols name) v) d.rows vals }
  else
    { cols := d.cols ++ [name], rows := List.zipWith (fun r v => r ++ [v]) d.rows vals }

/-- Cell-wise update of one existing column (`df.loc` masked assignment
specialised to a per-cell function). -/
def mapColCells (d : Dataset) (c : String) (f : Value → Value) : Dataset :=
  { d with rows := d.rows.map (fun r =>
      r.set (colIdx d.cols c) (f (r.getD (colIdx d.cols c) Value.na))) }

/-! ### Deduplicator: `df.drop_duplicates(inplace=True)` (lines 51-55) -/

/-- Keep the rows not equal to any already-seen row, scanning left to
right: pandas `drop_duplicates` with its default `keep='first'`. -/
def dropDupAux (seen : List Row) : List Row → List Row
  | [] => []
  | r :: rs => if r ∈ seen then dropDupAux seen rs else r :: dropDupAux (seen ++ [r]) rs

/-- `df.drop_duplicates()`: remove every row equal to an earlier row. -/
def dropDuplicates (l : List Row) : List Row := dropDupAux [] l

/-- The count the script prints as removed duplicates:
`initial_rows - len(df)`. -/
def duplicatesRemovedCount (l : List Row) : Nat :=
  l.length - (dropDuplicates l).length

/-! ### Type Normalizer: `pd.to_numeric(df[col], errors='coerce').astype('Int64')`
per column, `except` leaving the column unchanged (lines 58-67) -/

/-- Numeric value of a digit string, none when empty or non-digit. -/
def digitsToNat : List Char → Option Nat
  | [] => none
  | cs => if cs.all Char.isDigit then
      some (cs.foldl (fun a c => a * 10 + (c.toNat - 48)) 0)
    else none

/-- Split a character list at the first dot: text before it, and the text
after it when a dot occurs. -/
def splitDot : List Char → List Char × Option (List Char)
  | [] => ([], none)
  | c :: cs =>
    if c = '.' then ([], some cs)
    else
      let r := splitDot cs
      (c :: r.1, r.2)

/-- Unsigned decimal literal as a rational: digits, optionally a dot and
more digits. -/
def parseUnsignedDecimal (cs : List Char) : Option Rat :=
  match splitDot cs with
  | (a, none) => (digitsToNat a).map (fun n => mkRat n 1)
  | (a, some b) =>
    match digitsToNat a, digitsToNat b with
    | some ia, some ib => some (mkRat (ia * 10 ^ b.length + ib) (10 ^ b.length))
    | _, _ => none

/-- Signed decimal literal: the numeric reading `pd.to_numeric` gives a
string, none when unparseable (then `errors='coerce'` yields NaN). -/
def parseDecimal (s : String) : Option Rat :=
  match s.toList with
  | '-' :: rest =>
    match parseUnsignedDecimal rest with
    | some q => some (mkRat (-q.num) q.den)
    | none => none
  | cs => parseUnsignedDecimal cs

/-- Numeric reading of a cell under `pd.to_numeric(..., errors='coerce')`:
missing stays missing, numbers pass through, strings are parsed. -/
def toNumericCell : Value → Option Rat
  | Value.na => none
  | Value.num q => some q
  | Value.str s => parseDecimal s

/-- A numeric reading `astype('Int64')` accepts: missing, or integral. -/
def optIntegral : Option Rat → Bool
  | none => true
  | some q => q.den == 1

/-- The converted cell when the whole column converts: NaN for coercion
failures, the (integral) number otherwise. -/
def castCell (v : Value) : Value :=
  match toNumericCell v with
  | none => Value.na
  | some q => Value.num q

/-- Whether column `i` survives `to_numeric` + `astype('Int64')`: every
cell's numeric reading is missing or integral; otherwise the cast raises
and the `except` clause leaves the column as it was. -/
def colConvertible (d : Dataset) (i : Nat) : Bool :=
  (d.rows.map (fun r => toNumericCell (r.getD i Value.na))).all optIntegral

/-- The per-column conversion loop over `dtype_mapping` (every column):
convertible columns are cast cell-wise, failing columns are reported and
left unmodified. -/
def normalizeData (d : Dataset) : Dataset :=
  { d with rows := d.rows.map (fun r =>
      (List.range d.cols.length).map (fun i =>
        if colConvertible d i then castCell (r.getD i Value.na)
        else r.getD i Value.na)) }

/-- The column at position `i`, top to bottom (`getCol` by position). -/
def getColI (d : Dataset) (i : Nat) : List Value :=
  d.rows.map (fun r => r.getD i Value.na)

/-! ### Sentinel Replacer: `df.replace(-8, np.nan, inplace=True)` (lines 69-73) -/

/-- One cell under the blanket replacement: the number -8 becomes NaN,
every other cell is untouched. -/
def replaceCell (v : Value) : Value :=
  if v = Value.num (-8) then Value.na else v

/-- `df.replace(-8, np.nan)`: applied to every cell of every column. -/
def sentinelReplace (d : Dataset) : Dataset :=
  { d with rows := d.rows.map (fun r => r.map replaceCell) }

/-! ### Code Validator & Labeler: the loop over `data_dictionary.items()`
(lines 76-96).  In the source, only the two lines computing
`admissible_keys` and `inadmissible_count` sit under the
`if col in df.columns:` guard; the stale-count report, the construction of
`int_mapping_dict` and the assignment `df[new_col_name] = df[col].map(...)`
run for every entry, so an entry whose column is absent reads the
unbound or stale `inadmissible_count` and indexes `df[col]` anyway. -/

/-- Python `int()` on a dictionary key string: optional minus sign then
digits (whitespace tolerance and a plus sign are not modelled). -/
def pyInt (s : String) : Option Int :=
  match s.toList with
  | '-' :: cs => (digitsToNat cs).map (fun n => -(n : Int))
  | cs => (digitsToNat cs).map (fun n => (n : Int))

/-- `[int(k) for k in mapping_dict.keys() if k != '-8']`, none when some
retained key raises ValueError in `int()`. -/
def parseKeys : List (String × String) → Option (List Int)
  | [] => some []
  | p :: ps =>
    match pyInt p.1, parseKeys ps with
    | some k, some ks => some (k :: ks)
    | _, _ => none

/-- The admissible key set of one dictionary entry: every key except the
sentinel key "-8", coerced to integers. -/
def admissibleKeys (m : List (String × String)) : Option (List Int) :=
  parseKeys (m.filter (fun p => decide (p.1 ≠ "-8")))

/-- `{int(k): v for k, v in mapping_dict.items()}`: the full mapping with
integer keys, none when some key raises ValueError in `int()`. -/
def intMapping : List (String × String) → Option (List (Int × String))
  | [] => some []
  | p :: ps =>
    match pyInt p.1, intMapping ps with
    | some k, some im => some ((k, p.2) :: im)
    | _, _ => none

/-- Helper is_admissible of refine.py (lines 8-18): true when the value is
inadmissible, i.e. not NaN, not -8, and not one of the admissible keys. -/
def is_admissible (value : Value) (admissible_keys : List Int) : Bool :=
  match value with
  | Value.na => false
  | Value.num q => if q = -8 then false else !(admissible_keys.any (fun k => q == (k : Rat)))
  | Value.str _ => true

/-- `df[col].apply(is_admissible, admissible_keys=...).sum()`. -/
def countInadmissible (c : List Value) (keys : List Int) : Nat :=
  (c.filter (fun v => is_admissible v keys)).length

/-- Python dict lookup with integer keys, as `Series.map` consults it. -/
def lookupKey : List (Int × String) → Int → Option String
  | [], _ => none
  | p :: ps, k => if p.1 = k then some p.2 else lookupKey ps k

/-- One cell of `df[col].map(int_mapping_dict)`: the label of an integral
numeric value that is a key of the mapping; everything else (missing,
non-key, non-integral, string) maps to NaN. -/
def lookupLabel (im : List (Int × String)) (v : Value) : Value :=
  match v with
  | Value.num q =>
    if q.den == 1 then
      match lookupKey im q.num with
      | some lbl => Value.str lbl
      | none => Value.na
    else Value.na
  | _ => Value.na

/-- `df[new_col_name] = df[col].map(int_mapping_dict)` for one entry. -/
def makeLabelCol (d : Dataset) (col : String) (im : List (Int × String)) : Dataset :=
  setCol d (col ++ "_LABEL") ((getCol d col).map (lookupLabel im))

/-- Loop state of the validation loop: the table, the binding of the
Python local `inadmissible_count` (none before its first assignment), and
the inadmissible-count report lines printed so far. -/
structure VState where
  df : Dataset
  lastCount : Option Nat
  reports : List (String × Nat)
deriving DecidableEq

/-- One iteration of the validation loop for entry `(col, m)`, following
the source's control flow: the count is recomputed only when the column
exists (reading keys may raise ValueError); the `if inadmissible_count > 0`
test then reads the possibly unbound or stale local (NameError when
unbound); `int_mapping_dict` is built (ValueError possible); finally
`df[col]` is read for the label assignment (KeyError when absent). -/
def validateEntry (st : VState) (col : String) (m : List (String × String)) :
    Except String VState :=
  let cnt : Except String (Option Nat) :=
    if col ∈ st.df.cols then
      match admissibleKeys m with
      | none => Except.error "ValueError: invalid literal for int()"
      | some ks => Except.ok (some (countInadmissible (getCol st.df col) ks))
    else Except.ok st.lastCount
  match cnt with
  | Except.error e => Except.error e
  | Except.ok none => Except.error "NameError: name inadmissible_count is not defined"
  | Except.ok (some n) =>
    let reports := if 0 < n then st.reports ++ [(col, n)] else st.reports
    match intMapping m with
    | none => Except.error "ValueError: invalid literal for int()"
    | some im =>
      if col ∈ st.df.cols then Except.ok (VState.mk (makeLabelCol st.df col im) (some n) reports)
      else Except.error "KeyError"

/-- The validation loop over the dictionary entries, in entry order. -/
def validateLoop (st : VState) : List (String × List (String × String)) → Except String VState
  | [] => Except.ok st
  | e :: rest =>
    match validateEntry st e.1 e.2 with
    | Except.error msg => Except.error msg
    | Except.ok st1 => validateLoop st1 rest

/-- The whole Code Validator & Labeler stage: the refined table and the
printed inadmissible-count reports, or the uncaught exception. -/
def codeValidate (d : Dataset) (dict : List (String × List (String × String))) :
    Except String (Dataset × List (String × Nat)) :=
  match validateLoop (VState.mk d none []) dict with
  | Except.error e => Except.error e
  | Except.ok st => Except.ok (st.df, st.reports)

/-! ### Outlier Flagger (lines 99-110).  Only the computation of
`outlier_count` is guarded by `if hours_col in df.columns:`; the
`if outlier_count > 0:` block is not, so a table without the hours column
reads the never-assigned local and raises NameError.  The comparison
`df[hours_col] > outlier_limit` itself can also raise: when the Int64
conversion of the hours column failed and left object-dtype string cells
in place, comparing a string against the integer threshold raises
TypeError. -/

/-- The designated hours column. -/
def hoursCol : String := "HOURS_PER_WEEK_WORKED"

/-- Whether a cell holds a string: the object-dtype content that makes an
ordering comparison against the integer threshold raise. -/
def isStr : Value → Bool
  | Value.str _ => true
  | _ => false

/-- One cell of the mask `df[hours_col] > outlier_limit` for a comparable
cell: true only for a number strictly above 100 (missing compares as
not-above).  Only applied to cells the comparison accepts; `cmpGt100`
is the fallible comparison itself. -/
def isOutlier (v : Value) : Bool :=
  match v with
  | Value.num q => decide (100 < q)
  | _ => false

/-- One cell of the comparison `df[hours_col] > outlier_limit`: a number
compares against the threshold, missing compares as not-above, and a
string cell makes the comparison raise TypeError. -/
def cmpGt100 : Value → Except String Bool
  | Value.num q => Except.ok (decide (100 < q))
  | Value.na => Except.ok false
  | Value.str _ =>
    Except.error "TypeError: not supported between instances of str and int"

/-- The number of mask cells that compare true (for comparable columns):
`(df[hours_col] > outlier_limit).sum()`. -/
def countOutliers (c : List Value) : Nat := (c.filter isOutlier).length

/-- `(df[hours_col] > outlier_limit).sum()` with the comparison's error
path: the count of cells above the threshold, or the TypeError raised as
soon as the column holds a string cell. -/
def countOutliersE : List Value → Except String Nat
  | [] => Except.ok 0
  | v :: vs =>
    match cmpGt100 v, countOutliersE vs with
    | Except.ok b, Except.ok n => Except.ok ((if b then 1 else 0) + n)
    | Except.error e, _ => Except.error e
    | _, Except.error e => Except.error e

/-- The masked assignment `df.loc[df[hours_col] > outlier_limit, hours_col]
= np.nan`, per cell; only reached when the comparison succeeded, so on
cells that are numbers or missing. -/
def flagCell (v : Value) : Value := if isOutlier v then Value.na else v

/-- The Outlier Flagger stage: flags and nulls hours above 100, returning
the count it reports; NameError when the hours column is absent and
TypeError when the comparison meets a string cell (see the section
comment). -/
def outlierStep (d : Dataset) : Except String (Dataset × Nat) :=
  if hoursCol ∈ d.cols then
    match countOutliersE (getCol d hoursCol) with
    | Except.error e => Except.error e
    | Except.ok n =>
      if 0 < n then Except.ok (mapColCells d hoursCol flagCell, n)
      else Except.ok (d, n)
  else Except.error "NameError: name outlier_count is not defined"

/-! ### The full post-load pipeline of refine_data (lines 51-112) -/

/-- What one run reports besides the refined table. -/
structure RefineResult where
  df : Dataset
  duplicatesRemoved : Nat
  inadmissibleReports : List (String × Nat)
  outlierCount : Nat
deriving DecidableEq

/-- refine_data after loading: Deduplicator, Type Normalizer, Sentinel
Replacer, Code Validator & Labeler, Outlier Flagger, in source order; an
`Except.error` is an uncaught Python exception escaping the function. -/
def refinePipeline (dict : List (String × List (String × String))) (d : Dataset) :
    Except String RefineResult :=
  let d1 : Dataset := { d with rows := dropDuplicates d.rows }
  let dups := duplicatesRemovedCount d.rows
  let d2 := normalizeData d1
  let d3 := sentinelReplace d2
  match codeValidate d3 dict with
  | Except.error e => Except.error e
  | Except.ok (d4, reports) =>
    match outlierStep d4 with
    | Except.error e => Except.error e
    | Except.ok (d5, n) => Except.ok (RefineResult.mk d5 dups reports n)

/-! ## Helper lemmas -/

theorem getD_map_fixed {α : Type} (f : α → α) (dflt : α) (h : f dflt = dflt)
    (l : List α) (i : Nat) : (l.map f).getD i dflt = f (l.getD i dflt) := by
  induction l generalizing i with
  | nil => simpa using h.symm
  | cons a t ih =>
    cases i with
    | zero => rfl
    | succ n => simpa using ih n

theorem getD_append_left {α : Type} (l₁ l₂ : List α) (dflt : α) (i : Nat)
    (h : i < l₁.length) : (l₁ ++ l₂).getD i dflt = l₁.getD i dflt := by
  induction l₁ generalizing i with
  | nil => exact absurd h (Nat.not_lt_zero i)
  | cons a t ih =>
    cases i with
    | zero => rfl
    | succ n => simpa using ih n (Nat.lt_of_succ_lt_succ h)

theorem getD_append_length {α : Type} (l : List α) (v dflt : α) :
    (l ++ [v]).getD l.length dflt = v := by
  induction l with
  | nil => rfl
  | cons a t ih => simp only [List.cons_append, List.length_cons, List.getD_cons_succ, ih]

theorem getD_set_apply {α : Type} (f : α → α) (dflt : α) (hf : f dflt = dflt)
    (l : List α) (i : Nat) :
    (l.set i (f (l.getD i dflt))).getD i dflt = f (l.getD i dflt) := by
  induction l generalizing i with
  | nil => simpa using hf.symm
  | cons a t ih =>
    cases i with
    | zero => rfl
    | succ n => simpa using ih n

theorem getD_set_ne {α : Type} (l : List α) (i j : Nat) (a dflt : α) (h : i ≠ j) :
    (l.set i a).getD j dflt = l.getD j dflt := by
  induction l generalizing i j with
  | nil => rfl
  | cons b t ih =>
    cases i with
    | zero =>
      cases j with
      | zero => exact absurd rfl h
      | succ m => rfl
    | succ n =>
      cases j with
      | zero => rfl
      | succ m => simpa using ih n m (fun he => h (by rw [he]))

theorem zipWith_map_same {α β γ : Type} (g : α → β → γ) (f : α → β) (l : List α) :
    List.zipWith g l (l.map f) = l.map (fun a => g a (f a)) := by
  induction l with
  | nil => rfl
  | cons a t ih => simpa using ih

theorem colIdx_lt_length (cols : List String) (c : String) (h : c ∈ cols) :
    colIdx cols c < cols.length := by
  induction cols with
  | nil => cases h
  | cons a t ih =>
    by_cases hac : a = c
    · simp [colIdx, hac]
    · have ht : c ∈ t := by
        rcases List.mem_cons.mp h with h1 | h1
        · exact absurd h1.symm hac
        · exact h1
      simpa [colIdx, hac] using Nat.succ_lt_succ (ih ht)

theorem getD_colIdx (cols : List String) (c : String) (h : c ∈ cols) :
    cols.getD (colIdx cols c) "" = c := by
  induction cols with
  | nil => cases h
  | cons a t ih =>
    by_cases hac : a = c
    · simp [colIdx, hac]
    · have ht : c ∈ t := by
        rcases List.mem_cons.mp h with h1 | h1
        · exact absurd h1.symm hac
        · exact h1
      simpa [colIdx, hac] using ih ht

theorem colIdx_ne_of_ne (cols : List String) (c c' : String)
    (hc : c ∈ cols) (hc' : c' ∈ cols) (h : c ≠ c') :
    colIdx cols c ≠ colIdx cols c' := by
  intro he
  apply h
  rw [← getD_colIdx cols c hc, ← getD_colIdx cols c' hc', he]

theorem colIdx_append_of_mem (cols rest : List String) (c : String) (h : c ∈ cols) :
    colIdx (cols ++ rest) c = colIdx cols c := by
  induction cols with
  | nil => cases h
  | cons a t ih =>
    by_cases hac : a = c
    · simp [colIdx, hac]
    · have ht : c ∈ t := by
        rcases List.mem_cons.mp h with h1 | h1
        · exact absurd h1.symm hac
        · exact h1
      simp [colIdx, hac, ih ht]

theorem colIdx_append_self (cols : List String) (nm : String) (h : nm ∉ cols) :
    colIdx (cols ++ [nm]) nm = cols.length := by
  induction cols with
  | nil => simp [colIdx]
  | cons a t ih =>
    have ha : a ≠ nm := fun he => h (he ▸ List.mem_cons_self a t)
    have ht : nm ∉ t := fun he => h (List.mem_cons_of_mem a he)
    simp [colIdx, ha, ih ht]

theorem dropDupAux_sublist (seen l : List Row) : (dropDupAux seen l).Sublist l := by
  induction l generalizing seen with
  | nil => simp [dropDupAux]
  | cons r rs ih =>
    by_cases h : r ∈ seen
    · simpa [dropDupAux, h] using (ih seen).cons r
    · simpa [dropDupAux, h] using (ih (seen ++ [r])).cons₂ r

theorem dropDupAux_not_mem_seen (seen l : List Row) :
    ∀ x ∈ dropDupAux seen l, x ∉ seen := by
  induction l generalizing seen with
  | nil => simp [dropDupAux]
  | cons r rs ih =>
    by_cases h : r ∈ seen
    · simpa [dropDupAux, h] using ih seen
    · intro x hx
      simp only [dropDupAux, if_neg h, List.mem_cons] at hx
      rcases hx with rfl | hx
      · exact h
      · have := ih (seen ++ [r]) x hx
        intro hs
        exact this (List.mem_append_left _ hs)

theorem dropDupAux_nodup (seen l : List Row) : (dropDupAux seen l).Nodup := by
  induction l generalizing seen with
  | nil => simp [dropDupAux]
  | cons r rs ih =>
    by_cases h : r ∈ seen
    · simpa [dropDupAux, h] using ih seen
    · simp only [dropDupAux, if_neg h]
      refine List.nodup_cons.mpr ⟨?_, ih (seen ++ [r])⟩
      intro hr
      exact dropDupAux_not_mem_seen (seen ++ [r]) rs r hr
        (List.mem_append_right _ (List.mem_singleton.mpr rfl))

theorem mem_dropDupAux (seen l : List Row) (x : Row) (hx : x ∈ l) (hs : x ∉ seen) :
    x ∈ dropDupAux seen l := by
  induction l generalizing seen with
  | nil => cases hx
  | cons r rs ih =>
    by_cases h : r ∈ seen
    · rcases List.mem_cons.mp hx with rfl | hx1
      · exact absurd h hs
      · simpa [dropDupAux, h] using ih seen hx1 hs
    · simp only [dropDupAux, if_neg h, List.mem_cons]
      rcases List.mem_cons.mp hx with rfl | hx1
      · exact Or.inl rfl
      · by_cases hxr : x = r
        · exact Or.inl hxr
        · refine Or.inr (ih (seen ++ [r]) hx1 ?_)
          intro hm
          rcases List.mem_append.mp hm with hm1 | hm1
          · exact hs hm1
          · exact hxr (List.mem_singleton.mp hm1)

theorem foldl_eq_dropDupAux (l acc : List Row) :
    l.foldl (fun acc r => if r ∈ acc then acc else acc ++ [r]) acc =
      acc ++ dropDupAux acc l := by
  induction l generalizing acc with
  | nil => simp [dropDupAux]
  | cons r rs ih =>
    by_cases h : r ∈ acc
    · simpa [dropDupAux, h, List.foldl_cons] using ih acc
    · simp only [List.foldl_cons, if_neg h, dropDupAux]
      rw [ih (acc ++ [r])]
      simp

theorem dropDupAux_of_nodup (seen l : List Row) (h : l.Nodup)
    (hd : ∀ x ∈ l, x ∉ seen) : dropDupAux seen l = l := by
  induction l generalizing seen with
  | nil => rfl
  | cons r rs ih =>
    have hr : r ∉ seen := hd r (List.mem_cons_self r rs)
    have hn := List.nodup_cons.mp h
    simp only [dropDupAux, if_neg hr]
    rw [ih (seen ++ [r]) hn.2]
    intro x hx hm
    rcases List.mem_append.mp hm with hm1 | hm1
    · exact hd x (List.mem_cons_of_mem r hx) hm1
    · exact hn.1 ((List.mem_singleton.mp hm1) ▸ hx)

theorem dropDuplicates_of_nodup (l : List Row) (h : l.Nodup) : dropDuplicates l = l :=
  dropDupAux_of_nodup [] l h (by simp)

theorem getD_map_range {α : Type} (n : Nat) (g : Nat → α) (dflt : α) (i : Nat)
    (h : i < n) : ((List.range n).map g).getD i dflt = g i := by
  induction n generalizing g i with
  | zero => exact absurd h (Nat.not_lt_zero i)
  | succ m ih =>
    rw [List.range_succ_eq_map]
    cases i with
    | zero => rfl
    | succ k =>
      simp only [List.map_cons, List.map_map, List.getD_cons_succ]
      exact ih (fun j => g (j + 1)) k (Nat.lt_of_succ_lt_succ h)

theorem parseKeys_eq_filterMap (l : List (String × String)) (ks : List Int)
    (h : parseKeys l = some ks) : ks = l.filterMap (fun p => pyInt p.1) := by
  induction l generalizing ks with
  | nil =>
    have : ([] : List Int) = ks := Option.some.inj h
    simp [← this]
  | cons p ps ih =>
    unfold parseKeys at h
    rcases h1 : pyInt p.1 with _ | k <;> rw [h1] at h
    · exact absurd h (by simp)
    · rcases h2 : parseKeys ps with _ | ks' <;> rw [h2] at h
      · exact absurd h (by simp)
      · have hk : k :: ks' = ks := Option.some.inj h
        rw [← hk, List.filterMap_cons, h1, ih ks' h2]

theorem is_admissible_iff (v : Value) (ks : List Int) :
    is_admissible v ks = true ↔
      (v ≠ Value.na ∧ v ≠ Value.num (-8) ∧ ¬ ∃ k ∈ ks, v = Value.num (k : Rat)) := by
  cases v with
  | na => simp [is_admissible]
  | str s => simp [is_admissible]
  | num q =>
    by_cases hq : q = -8
    · simp [is_admissible, hq]
    · simp [is_admissible, hq, List.any_eq_true]

theorem is_admissible_eq_decide (v : Value) (ks : List Int) :
    is_admissible v ks =
      decide (v ≠ Value.na ∧ v ≠ Value.num (-8) ∧ ¬ ∃ k ∈ ks, v = Value.num (k : Rat)) := by
  by_cases h : (v ≠ Value.na ∧ v ≠ Value.num (-8) ∧ ¬ ∃ k ∈ ks, v = Value.num (k : Rat))
  · rw [decide_eq_true h]
    exact (is_admissible_iff v ks).mpr h
  · rw [decide_eq_false h]
    exact Bool.eq_false_iff.mpr (fun ht => h ((is_admissible_iff v ks).mp ht))

theorem getColI_normalizeData_pos (d : Dataset) (i : Nat) (hi : i < d.cols.length)
    (hc : colConvertible d i = true) :
    getColI (normalizeData d) i = (getColI d i).map castCell := by
  unfold getColI normalizeData
  simp only [List.map_map]
  refine List.map_congr_left ?_
  intro r _
  simp only [Function.comp_apply, getD_map_range d.cols.length _ Value.na i hi, hc, if_true]

theorem getColI_normalizeData_neg (d : Dataset) (i : Nat) (hi : i < d.cols.length)
    (hc : colConvertible d i = false) :
    getColI (normalizeData d) i = getColI d i := by
  unfold getColI normalizeData
  simp only [List.map_map]
  refine List.map_congr_left ?_
  intro r _
  simp only [Function.comp_apply, getD_map_range d.cols.length _ Value.na i hi, hc,
    Bool.false_eq_true, if_false]

theorem countOutliersE_eq_ok_of (c : List Value) (h : ∀ v ∈ c, isStr v = false) :
    countOutliersE c = Except.ok (countOutliers c) := by
  induction c with
  | nil => rfl
  | cons v vs ih =>
    have hv := h v (List.mem_cons_self v vs)
    have ihv := ih (fun u hu => h u (List.mem_cons_of_mem v hu))
    cases v with
    | na =>
      simp only [countOutliersE, cmpGt100, ihv]
      simp [countOutliers, List.filter_cons, isOutlier]
    | num q =>
      simp only [countOutliersE, cmpGt100, ihv]
      by_cases hq : (100 : Rat) < q
      · simp [countOutliers, List.filter_cons, isOutlier, hq, Nat.add_comm]
      · simp [countOutliers, List.filter_cons, isOutlier, hq]
    | str s => exact absurd hv (by simp [isStr])

theorem isStr_false_of_countOutliersE_ok (c : List Value) (n : Nat)
    (h : countOutliersE c = Except.ok n) : ∀ v ∈ c, isStr v = false := by
  induction c generalizing n with
  | nil =>
    intro v hv
    cases hv
  | cons v vs ih =>
    intro u hu
    unfold countOutliersE at h
    cases hc : cmpGt100 v with
    | error e =>
      rw [hc] at h
      cases hcs : countOutliersE vs with
      | error e2 =>
        rw [hcs] at h
        exact Except.noConfusion h
      | ok n2 =>
        rw [hcs] at h
        exact Except.noConfusion h
    | ok b =>
      rw [hc] at h
      cases hcs : countOutliersE vs with
      | error e2 =>
        rw [hcs] at h
        exact Except.noConfusion h
      | ok n2 =>
        rw [hcs] at h
        rcases List.mem_cons.mp hu with rfl | hu1
        · cases u with
          | na => rfl
          | num q => rfl
          | str s =>
            simp only [cmpGt100] at hc
            exact Except.noConfusion hc
        · exact ih n2 hcs u hu1

theorem outlierStep_of_noStr (d : Dataset) (h : hoursCol ∈ d.cols)
    (hnum : ∀ v ∈ getCol d hoursCol, isStr v = false) :
    outlierStep d =
      (if 0 < countOutliers (getCol d hoursCol)
       then Except.ok (mapColCells d hoursCol flagCell, countOutliers (getCol d hoursCol))
       else Except.ok (d, countOutliers (getCol d hoursCol))) := by
  unfold outlierStep
  rw [if_pos h, countOutliersE_eq_ok_of _ hnum]

theorem outlierStep_ok_spec (d : Dataset) (p : Dataset × Nat)
    (h : outlierStep d = Except.ok p) :
    hoursCol ∈ d.cols ∧ p.1.cols = d.cols ∧
    countOutliersE (getCol d hoursCol) = Except.ok p.2 ∧
    (p.1 = d ∨ p.1 = mapColCells d hoursCol flagCell) := by
  by_cases hm : hoursCol ∈ d.cols
  · simp only [outlierStep, if_pos hm] at h
    split at h
    · exact Except.noConfusion h
    · rename_i n heq
      by_cases hn : 0 < n
      · rw [if_pos hn] at h
        cases Except.ok.inj h
        exact ⟨hm, rfl, heq, Or.inr rfl⟩
      · rw [if_neg hn] at h
        cases Except.ok.inj h
        exact ⟨hm, rfl, heq, Or.inl rfl⟩
  · simp only [outlierStep, if_neg hm] at h
    exact Except.noConfusion h

theorem isStr_castCell (v : Value) : isStr (castCell v) = false := by
  unfold castCell
  cases toNumericCell v with
  | none => rfl
  | some q => rfl

theorem isStr_flagCell (v : Value) (h : isStr v = false) : isStr (flagCell v) = false := by
  unfold flagCell
  split
  · rfl
  · exact h

theorem isStr_replaceCell (v : Value) (h : isStr v = false) :
    isStr (replaceCell v) = false := by
  unfold replaceCell
  split
  · rfl
  · exact h

theorem getCol_sentinelReplace (d : Dataset) (c : String) :
    getCol (sentinelReplace d) c = (getCol d c).map replaceCell := by
  unfold getCol sentinelReplace
  simp only [List.map_map]
  refine List.map_congr_left ?_
  intro r _
  exact getD_map_fixed replaceCell Value.na rfl r _

theorem getCol_normalizeData (d : Dataset) (c : String) (hc : c ∈ d.cols) :
    getCol (normalizeData d) c = (getCol d c).map castCell ∨
    getCol (normalizeData d) c = getCol d c := by
  cases hcv : colConvertible d (colIdx d.cols c) with
  | false => exact Or.inr (getColI_normalizeData_neg d _ (colIdx_lt_length d.cols c hc) hcv)
  | true => exact Or.inl (getColI_normalizeData_pos d _ (colIdx_lt_length d.cols c hc) hcv)

theorem getCol_mem_of_rows_sublist (d : Dataset) (l : List Row) (hsub : l.Sublist d.rows)
    (c : String) (v : Value) (hv : v ∈ getCol { d with rows := l } c) :
    v ∈ getCol d c := by
  unfold getCol at hv ⊢
  rcases List.mem_map.mp hv with ⟨r, hr, rfl⟩
  exact List.mem_map.mpr ⟨r, hsub.subset hr, rfl⟩

theorem getCol_mapColCells_self (d : Dataset) (c : String) (f : Value → Value)
    (hf : f Value.na = Value.na) :
    getCol (mapColCells d c f) c = (getCol d c).map f := by
  unfold getCol mapColCells
  simp only [List.map_map]
  refine List.map_congr_left ?_
  intro r _
  exact getD_set_apply f Value.na hf r (colIdx d.cols c)

theorem getCol_mapColCells_other (d : Dataset) (c c' : String) (f : Value → Value)
    (hc : c ∈ d.cols) (hc' : c' ∈ d.cols) (hne : c' ≠ c) :
    getCol (mapColCells d c f) c' = getCol d c' := by
  unfold getCol mapColCells
  simp only [List.map_map]
  refine List.map_congr_left ?_
  intro r _
  exact getD_set_ne r (colIdx d.cols c) (colIdx d.cols c') _ Value.na
    (colIdx_ne_of_ne d.cols c c' hc hc' (fun he => hne he.symm))

/-! ## Claim theorems -/

/-- C6: the Deduplicator's output contains no two identical rows, every
output row appears in the input, the relative order of surviving rows
matches the input (it is a sublist), every input row still occurs (so the
first occurrence of each duplicated row is the one kept, as the
left-to-right fold characterisation states exactly), and the reported
removed count is the input row count minus the output row count. -/
theorem deduplicator_spec (l : List Row) :
    (dropDuplicates l).Nodup ∧
    (dropDuplicates l).Sublist l ∧
    (∀ x ∈ dropDuplicates l, x ∈ l) ∧
    (∀ x ∈ l, x ∈ dropDuplicates l) ∧
    dropDuplicates l = l.foldl (fun acc r => if r ∈ acc then acc else acc ++ [r]) [] ∧
    duplicatesRemovedCount l = l.length - (dropDuplicates l).length := by
  refine ⟨dropDupAux_nodup [] l, dropDupAux_sublist [] l, ?_, ?_, ?_, rfl⟩
  · intro x hx
    exact (dropDupAux_sublist [] l).mem hx
  · intro x hx
    exact mem_dropDupAux [] l x hx (by simp)
  · simpa using (foldl_eq_dropDupAux l []).symm

/-- C7: after the Sentinel Replacer, the value -8 appears in no cell of
any column; the header is untouched, no row is added or removed, and each
cell that held -8 now holds the missing marker while every other cell is
unchanged. -/
theorem sentinel_replacer_spec (d : Dataset) :
    (∀ r ∈ (sentinelReplace d).rows, ∀ v ∈ r, v ≠ Value.num (-8)) ∧
    (sentinelReplace d).cols = d.cols ∧
    (sentinelReplace d).rows.length = d.rows.length ∧
    (∀ i j, ((sentinelReplace d).rows.getD i []).getD j Value.na =
      (if (d.rows.getD i []).getD j Value.na = Value.num (-8) then Value.na
       else (d.rows.getD i []).getD j Value.na)) := by
  refine ⟨?_, rfl, by simp [sentinelReplace], ?_⟩
  · intro r hr v hv
    simp only [sentinelReplace, List.mem_map] at hr
    rcases hr with ⟨r0, _, rfl⟩
    rcases List.mem_map.mp hv with ⟨u, _, rfl⟩
    unfold replaceCell
    split
    · exact fun hc => Value.noConfusion hc
    · assumption
  · intro i j
    have hrows : (sentinelReplace d).rows.getD i [] = (d.rows.getD i []).map replaceCell :=
      getD_map_fixed (List.map replaceCell) [] rfl d.rows i
    rw [hrows, getD_map_fixed replaceCell Value.na rfl]
    rfl

/-- C1 (code bug in the source): a dictionary entry whose column is absent
from the table is not skipped; the loop body keeps running outside the
`if col in df.columns:` guard, so the first such entry reads the unbound
local `inadmissible_count` (NameError) and a later such entry reaches the
label assignment and indexes `df[col]` (KeyError). -/
theorem validator_absent_column_crash :
    codeValidate (Dataset.mk ["A"] [[Value.num 1]]) [("GHOST", [("1", "X")])] =
      Except.error "NameError: name inadmissible_count is not defined" ∧
    codeValidate (Dataset.mk ["A"] [[Value.num 1]])
      [("A", [("1", "X")]), ("GHOST", [("1", "Y")])] = Except.error "KeyError" := by
  decide

/-- C2 (code bug in the source): when the hours column is absent, the
Outlier Flagger is not skipped; `if outlier_count > 0:` sits outside the
presence guard and reads the never-assigned local, raising NameError, so
no table reaches the Writer. -/
theorem outlier_absent_column_crash :
    outlierStep (Dataset.mk ["A"] [[Value.num 1]]) =
      Except.error "NameError: name outlier_count is not defined" ∧
    refinePipeline [] (Dataset.mk ["A"] [[Value.num 1]]) =
      Except.error "NameError: name outlier_count is not defined" := by
  decide

/-- C10: a syntactically valid dictionary whose entry for a present column
carries the non-integer key "abc" makes the validation stage raise an
uncaught exception (the `int(k)` coercion is unguarded), both at the stage
and at the whole pipeline. -/
theorem dictionary_bad_key_crash :
    codeValidate (Dataset.mk ["COL"] [[Value.num 1]]) [("COL", [("abc", "X")])] =
      Except.error "ValueError: invalid literal for int()" ∧
    refinePipeline [("COL", [("abc", "X")])] (Dataset.mk ["COL"] [[Value.num 1]]) =
      Except.error "ValueError: invalid literal for int()" := by
  decide

/-- C5 (amended): after the Type Normalizer, every value of a column whose
conversion succeeds is an integer or missing; a column whose conversion
fails (some cell reads as a non-integral number, so `astype('Int64')`
raises and the `except` clause fires) is left unmodified and may keep
non-integer values.  The header is unchanged. -/
theorem type_normalizer_spec (d : Dataset) (i : Nat) (hi : i < d.cols.length) :
    (colConvertible d i = true →
      ∀ v ∈ getColI (normalizeData d) i,
        v = Value.na ∨ ∃ z : Int, v = Value.num (z : Rat)) ∧
    (colConvertible d i = false → getColI (normalizeData d) i = getColI d i) ∧
    (normalizeData d).cols = d.cols := by
  refine ⟨?_, getColI_normalizeData_neg d i hi, rfl⟩
  intro hc v hv
  rw [getColI_normalizeData_pos d i hi hc] at hv
  rcases List.mem_map.mp hv with ⟨u, hu, rfl⟩
  rcases List.mem_map.mp hu with ⟨r, hr, rfl⟩
  have hint : optIntegral (toNumericCell (r.getD i Value.na)) = true := by
    have := List.all_eq_true.mp hc
    exact this _ (List.mem_map.mpr ⟨r, hr, rfl⟩)
  unfold castCell
  rcases hq : toNumericCell (r.getD i Value.na) with _ | q
  · exact Or.inl rfl
  · rw [hq] at hint
    have hden : q.den = 1 := by simpa [optIntegral] using hint
    exact Or.inr ⟨q.num, by rw [Rat.coe_int_num_of_den_eq_one hden]⟩

/-- C5 counterexample: the claim as stated fails; a column holding the
non-integral number 3/2 makes the Int64 cast raise, the column is left
unmodified, and the surviving value is neither an integer nor missing. -/
theorem type_normalizer_counterexample :
    getColI (normalizeData (Dataset.mk ["X"] [[Value.num (mkRat 3 2)]])) 0 =
      [Value.num (mkRat 3 2)] ∧
    ¬ (Value.num (mkRat 3 2) = Value.na ∨
        ∃ z : Int, Value.num (mkRat 3 2) = Value.num (z : Rat)) := by
  refine ⟨by decide, ?_⟩
  rintro (h | ⟨z, hz⟩)
  · exact Value.noConfusion h
  · have hden : (mkRat 3 2).den = ((z : Rat)).den := by rw [Value.num.inj hz]
    rw [Rat.den_intCast] at hden
    have h2 : (mkRat 3 2).den = 2 := by decide
    rw [h2] at hden
    exact Nat.noConfusion (Nat.succ.inj hden)

/-- C5 witness: a convertible column (a numeric string and a missing cell)
evaluated through the amended theorem. -/
theorem type_normalizer_witness :
    (colConvertible (Dataset.mk ["A"] [[Value.str "7"], [Value.na]]) 0 = true →
      ∀ v ∈ getColI (normalizeData (Dataset.mk ["A"] [[Value.str "7"], [Value.na]])) 0,
        v = Value.na ∨ ∃ z : Int, v = Value.num (z : Rat)) ∧
    (colConvertible (Dataset.mk ["A"] [[Value.str "7"], [Value.na]]) 0 = false →
      getColI (normalizeData (Dataset.mk ["A"] [[Value.str "7"], [Value.na]])) 0 =
        getColI (Dataset.mk ["A"] [[Value.str "7"], [Value.na]]) 0) ∧
    (normalizeData (Dataset.mk ["A"] [[Value.str "7"], [Value.na]])).cols = ["A"] :=
  type_normalizer_spec (Dataset.mk ["A"] [[Value.str "7"], [Value.na]]) 0 (by decide)

/-- C4: for a dictionary entry whose keys parse, the computed (and, when
positive, reported) inadmissible count equals the number of column values
that are not missing, not -8, and not among the admissible keys; a missing
value or -8 is never inadmissible; and the admissible key set is the
dictionary's keys coerced to integers with the key "-8" excluded. -/
theorem inadmissible_count_spec (c : List Value) (m : List (String × String))
    (ks : List Int) (h : admissibleKeys m = some ks) :
    countInadmissible c ks =
      (c.filter (fun v => decide (v ≠ Value.na ∧ v ≠ Value.num (-8) ∧
        ¬ ∃ k ∈ ks, v = Value.num (k : Rat)))).length ∧
    is_admissible Value.na ks = false ∧
    is_admissible (Value.num (-8)) ks = false ∧
    ks = (m.filter (fun p => decide (p.1 ≠ "-8"))).filterMap (fun p => pyInt p.1) := by
  refine ⟨?_, rfl, by simp [is_admissible], parseKeys_eq_filterMap _ ks h⟩
  unfold countInadmissible
  congr 1
  apply List.filter_congr
  intro v _
  exact is_admissible_eq_decide v ks

/-- C4 witness: the spec scenario column [1, 2, 5, -8, NaN] against the
FAMILY_TYPE mapping with keys 1, 2 and the sentinel key. -/
theorem inadmissible_count_witness :
    countInadmissible [Value.num 1, Value.num 2, Value.num 5, Value.num (-8), Value.na]
        [1, 2] =
      (([Value.num 1, Value.num 2, Value.num 5, Value.num (-8), Value.na]).filter
        (fun v => decide (v ≠ Value.na ∧ v ≠ Value.num (-8) ∧
          ¬ ∃ k ∈ [(1 : Int), 2], v = Value.num (k : Rat)))).length ∧
    is_admissible Value.na [1, 2] = false ∧
    is_admissible (Value.num (-8)) [1, 2] = false ∧
    [(1 : Int), 2] =
      (([("1", "Married couple"), ("2", "Single parent"),
        ("-8", "No code required")]).filter
        (fun p => decide (p.1 ≠ "-8"))).filterMap (fun p => pyInt p.1) :=
  inadmissible_count_spec _ _ _ (by decide)

/-- C8 (amended): with the hours column present and holding only numeric
or missing cells, the Outlier Flagger succeeds, reports the number of
values strictly above 100, replaces exactly those with missing (a number
above 100 becomes missing, one not above 100 and a missing cell stay as
they are), leaves every other column and the header unchanged, makes no
modification when no value exceeds 100, and on the spec scenario
[35, 120, 99, 150] yields count 2 and [35, NaN, 99, NaN].  (The
numeric-or-missing proviso is forced: a string cell left behind by a
failed Int64 conversion makes the comparison raise TypeError, as the
counterexample shows.) -/
theorem outlier_flagger_spec (d : Dataset) (h : hoursCol ∈ d.cols)
    (hnum : ∀ v ∈ getCol d hoursCol, isStr v = false) :
    (∃ p : Dataset × Nat, outlierStep d = Except.ok p ∧
      p.2 = countOutliers (getCol d hoursCol) ∧
      p.1.cols = d.cols ∧
      getCol p.1 hoursCol = (getCol d hoursCol).map flagCell ∧
      (∀ c ∈ d.cols, c ≠ hoursCol → getCol p.1 c = getCol d c) ∧
      (countOutliers (getCol d hoursCol) = 0 → p.1 = d)) ∧
    (∀ q : Rat, 100 < q → flagCell (Value.num q) = Value.na) ∧
    (∀ q : Rat, ¬ 100 < q → flagCell (Value.num q) = Value.num q) ∧
    flagCell Value.na = Value.na ∧
    outlierStep (Dataset.mk [hoursCol]
        [[Value.num 35], [Value.num 120], [Value.num 99], [Value.num 150]]) =
      Except.ok (Dataset.mk [hoursCol]
        [[Value.num 35], [Value.na], [Value.num 99], [Value.na]], 2) := by
  refine ⟨?_, ?_, ?_, rfl, by decide⟩
  · by_cases hn : 0 < countOutliers (getCol d hoursCol)
    · refine ⟨(mapColCells d hoursCol flagCell, countOutliers (getCol d hoursCol)),
        ?_, rfl, rfl, getCol_mapColCells_self d hoursCol flagCell rfl, ?_, ?_⟩
      · rw [outlierStep_of_noStr d h hnum, if_pos hn]
      · intro c hc hne
        exact getCol_mapColCells_other d hoursCol c flagCell h hc hne
      · intro h0
        exact absurd (h0 ▸ hn) (Nat.lt_irrefl 0)
    · have h0 : countOutliers (getCol d hoursCol) = 0 := Nat.eq_zero_of_not_pos hn
      have hall : ∀ v ∈ getCol d hoursCol, isOutlier v = false := by
        intro v hv
        by_contra hvb
        have hmem : v ∈ (getCol d hoursCol).filter isOutlier :=
          List.mem_filter.mpr ⟨hv, by simpa using hvb⟩
        have : (getCol d hoursCol).filter isOutlier = [] :=
          List.length_eq_zero.mp h0
        rw [this] at hmem
        cases hmem
      have hmapid : (getCol d hoursCol).map flagCell = getCol d hoursCol := by
        conv_rhs => rw [← List.map_id (getCol d hoursCol)]
        refine List.map_congr_left ?_
        intro v hv
        simp [flagCell, hall v hv]
      refine ⟨(d, countOutliers (getCol d hoursCol)), ?_, rfl, rfl, hmapid.symm,
        fun c _ _ => rfl, fun _ => rfl⟩
      rw [outlierStep_of_noStr d h hnum, if_neg hn]
  · intro q hq
    simp [flagCell, isOutlier, hq]
  · intro q hq
    simp [flagCell, isOutlier, hq]

/-- C8 counterexample: the claim as stated fails.  An hours column whose
Int64 conversion failed can still hold string cells; comparing them with
the threshold raises TypeError, so instead of leaving values not above
100 unchanged the step (and the whole pipeline, as the run from the raw
strings "abc" and "1.5" shows) crashes. -/
theorem outlier_flagger_counterexample :
    hoursCol ∈ (Dataset.mk [hoursCol] [[Value.str "abc"], [Value.str "1.5"]]).cols ∧
    outlierStep (Dataset.mk [hoursCol] [[Value.str "abc"], [Value.str "1.5"]]) =
      Except.error "TypeError: not supported between instances of str and int" ∧
    refinePipeline [] (Dataset.mk [hoursCol] [[Value.str "abc"], [Value.str "1.5"]]) =
      Except.error "TypeError: not supported between instances of str and int" := by
  decide

/-- C8 witness: the theorem evaluated at the spec scenario table. -/
theorem outlier_flagger_witness :
    (∃ p : Dataset × Nat,
      outlierStep (Dataset.mk [hoursCol]
          [[Value.num 35], [Value.num 120], [Value.num 99], [Value.num 150]]) =
        Except.ok p ∧
      p.2 = countOutliers (getCol (Dataset.mk [hoursCol]
          [[Value.num 35], [Value.num 120], [Value.num 99], [Value.num 150]]) hoursCol) ∧
      p.1.cols = [hoursCol] ∧
      getCol p.1 hoursCol = (getCol (Dataset.mk [hoursCol]
          [[Value.num 35], [Value.num 120], [Value.num 99], [Value.num 150]]) hoursCol).map
            flagCell ∧
      (∀ c ∈ [hoursCol], c ≠ hoursCol →
        getCol p.1 c = getCol (Dataset.mk [hoursCol]
          [[Value.num 35], [Value.num 120], [Value.num 99], [Value.num 150]]) c) ∧
      (countOutliers (getCol (Dataset.mk [hoursCol]
          [[Value.num 35], [Value.num 120], [Value.num 99], [Value.num 150]]) hoursCol) = 0 →
        p.1 = Dataset.mk [hoursCol]
          [[Value.num 35], [Value.num 120], [Value.num 99], [Value.num 150]])) ∧
    (∀ q : Rat, 100 < q → flagCell (Value.num q) = Value.na) ∧
    (∀ q : Rat, ¬ 100 < q → flagCell (Value.num q) = Value.num q) ∧
    flagCell Value.na = Value.na ∧
    outlierStep (Dataset.mk [hoursCol]
        [[Value.num 35], [Value.num 120], [Value.num 99], [Value.num 150]]) =
      Except.ok (Dataset.mk [hoursCol]
        [[Value.num 35], [Value.na], [Value.num 99], [Value.na]], 2) :=
  outlier_flagger_spec (Dataset.mk [hoursCol]
    [[Value.num 35], [Value.num 120], [Value.num 99], [Value.num 150]])
    (by decide) (by decide)

/-- C3 (amended): for a dictionary-covered column present in the table, as
long as no preexisting column already bears the label name, label creation
appends the column `<column>_LABEL`; its cells are the `Series.map` of the
source column through the full integer-keyed mapping (sentinel key
included): the mapping's label whenever the cell is an integral number
that is a key, and missing otherwise (missing cell, non-key, non-integral,
or string); every preexisting column is left unchanged. -/
theorem label_mapping_spec (d : Dataset) (col : String) (im : List (Int × String))
    (_hcol : col ∈ d.cols) (hfresh : (col ++ "_LABEL") ∉ d.cols)
    (hwf : ∀ r ∈ d.rows, r.length = d.cols.length) :
    (makeLabelCol d col im).cols = d.cols ++ [col ++ "_LABEL"] ∧
    getCol (makeLabelCol d col im) (col ++ "_LABEL") =
      (getCol d col).map (lookupLabel im) ∧
    (∀ c ∈ d.cols, getCol (makeLabelCol d col im) c = getCol d c) ∧
    (∀ (k : Int) (lbl : String), lookupKey im k = some lbl →
      lookupLabel im (Value.num (k : Rat)) = Value.str lbl) ∧
    (∀ v : Value, (¬ ∃ (k : Int) (lbl : String),
        v = Value.num (k : Rat) ∧ lookupKey im k = some lbl) →
      lookupLabel im v = Value.na) := by
  have hrows : (makeLabelCol d col im).rows =
      d.rows.map (fun r => r ++ [lookupLabel im (r.getD (colIdx d.cols col) Value.na)]) := by
    unfold makeLabelCol setCol getCol
    rw [if_neg hfresh]
    simp only [List.map_map]
    exact zipWith_map_same (fun r v => r ++ [v])
      (fun r => lookupLabel im (r.getD (colIdx d.cols col) Value.na)) d.rows
  have hcols : (makeLabelCol d col im).cols = d.cols ++ [col ++ "_LABEL"] := by
    unfold makeLabelCol setCol
    rw [if_neg hfresh]
  refine ⟨hcols, ?_, ?_, ?_, ?_⟩
  · unfold getCol
    rw [hcols, hrows, colIdx_append_self d.cols _ hfresh]
    simp only [List.map_map]
    refine List.map_congr_left ?_
    intro r hr
    simp only [Function.comp_apply]
    rw [← hwf r hr, getD_append_length]
  · intro c hc
    unfold getCol
    rw [hcols, hrows, colIdx_append_of_mem d.cols _ c hc]
    simp only [List.map_map]
    refine List.map_congr_left ?_
    intro r hr
    simp only [Function.comp_apply]
    exact getD_append_left r _ Value.na (colIdx d.cols c)
      (hwf r hr ▸ colIdx_lt_length d.cols c hc)
  · intro k lbl hk
    simp [lookupLabel, Rat.den_intCast, Rat.num_intCast, hk]
  · intro v hne
    cases v with
    | na => rfl
    | str s => rfl
    | num q =>
      by_cases hden : q.den = 1
      · rcases hlk : lookupKey im q.num with _ | lbl
        · simp [lookupLabel, hden, hlk]
        · refine absurd ⟨q.num, lbl, ?_, hlk⟩ hne
          rw [Rat.coe_int_num_of_den_eq_one hden]
      · have hb : (q.den == 1) = false := by simpa using hden
        simp [lookupLabel, hb]

/-- C3 counterexample: the claim as stated fails, because a preexisting
column that is already named `<column>_LABEL` is overwritten by the label
assignment rather than left unchanged. -/
theorem label_mapping_counterexample :
    "C_LABEL" ∈ (Dataset.mk ["C", "C_LABEL"] [[Value.num 1, Value.str "OLD"]]).cols ∧
    makeLabelCol (Dataset.mk ["C", "C_LABEL"] [[Value.num 1, Value.str "OLD"]])
        "C" [(1, "A")] =
      Dataset.mk ["C", "C_LABEL"] [[Value.num 1, Value.str "A"]] ∧
    getCol (makeLabelCol (Dataset.mk ["C", "C_LABEL"] [[Value.num 1, Value.str "OLD"]])
        "C" [(1, "A")]) "C_LABEL" ≠
      getCol (Dataset.mk ["C", "C_LABEL"] [[Value.num 1, Value.str "OLD"]]) "C_LABEL" := by
  decide

/-- C3 witness: the FAMILY_TYPE labelling evaluated through the amended
theorem. -/
theorem label_mapping_witness :
    (makeLabelCol (Dataset.mk ["FAMILY_TYPE"]
        [[Value.num 1], [Value.num 2], [Value.num 5], [Value.na], [Value.na]])
        "FAMILY_TYPE"
        [(1, "Married couple"), (2, "Single parent"), (-8, "No code required")]).cols =
      ["FAMILY_TYPE"] ++ ["FAMILY_TYPE" ++ "_LABEL"] ∧
    getCol (makeLabelCol (Dataset.mk ["FAMILY_TYPE"]
        [[Value.num 1], [Value.num 2], [Value.num 5], [Value.na], [Value.na]])
        "FAMILY_TYPE"
        [(1, "Married couple"), (2, "Single parent"), (-8, "No code required")])
        ("FAMILY_TYPE" ++ "_LABEL") =
      (getCol (Dataset.mk ["FAMILY_TYPE"]
        [[Value.num 1], [Value.num 2], [Value.num 5], [Value.na], [Value.na]])
        "FAMILY_TYPE").map (lookupLabel
          [(1, "Married couple"), (2, "Single parent"), (-8, "No code required")]) ∧
    (∀ c ∈ ["FAMILY_TYPE"],
      getCol (makeLabelCol (Dataset.mk ["FAMILY_TYPE"]
        [[Value.num 1], [Value.num 2], [Value.num 5], [Value.na], [Value.na]])
        "FAMILY_TYPE"
        [(1, "Married couple"), (2, "Single parent"), (-8, "No code required")]) c =
      getCol (Dataset.mk ["FAMILY_TYPE"]
        [[Value.num 1], [Value.num 2], [Value.num 5], [Value.na], [Value.na]]) c) ∧
    (∀ (k : Int) (lbl : String),
      lookupKey [(1, "Married couple"), (2, "Single parent"),
        (-8, "No code required")] k = some lbl →
      lookupLabel [(1, "Married couple"), (2, "Single parent"),
        (-8, "No code required")] (Value.num (k : Rat)) = Value.str lbl) ∧
    (∀ v : Value, (¬ ∃ (k : Int) (lbl : String), v = Value.num (k : Rat) ∧
        lookupKey [(1, "Married couple"), (2, "Single parent"),
          (-8, "No code required")] k = some lbl) →
      lookupLabel [(1, "Married couple"), (2, "Single parent"),
        (-8, "No code required")] v = Value.na) :=
  label_mapping_spec (Dataset.mk ["FAMILY_TYPE"]
      [[Value.num 1], [Value.num 2], [Value.num 5], [Value.na], [Value.na]])
    "FAMILY_TYPE"
    [(1, "Married couple"), (2, "Single parent"), (-8, "No code required")]
    (by decide) (by decide) (by decide)

/-- C9 counterexample: the claim as stated fails.  On the table with
columns HOURS_PER_WEEK_WORKED and A and rows [10, -8] and [10, NaN], the
first run succeeds and nulls the -8, which makes the two rows identical;
running the pipeline again on that output (with no dictionary) removes one
additional duplicate row, not zero. -/
theorem pipeline_idempotence_counterexample :
    (refinePipeline [] (Dataset.mk [hoursCol, "A"]
        [[Value.num 10, Value.num (-8)], [Value.num 10, Value.na]])).map
      (fun r1 => (refinePipeline [] r1.df).map (fun r2 => r2.duplicatesRemoved)) =
      Except.ok (Except.ok 1) ∧
    (refinePipeline [] (Dataset.mk [hoursCol, "A"]
        [[Value.num 10, Value.num (-8)], [Value.num 10, Value.na]])).map
      (fun r1 => (refinePipeline [] r1.df).map (fun r2 => r2.duplicatesRemoved)) ≠
      Except.ok (Except.ok 0) := by
  constructor
  · decide
  · decide

/-- C9 (amended): a second full run of the pipeline on any already-refined
output, with the dictionary not re-applied, succeeds and reports zero
inadmissible values; provided additionally that the refined rows are
pairwise distinct, it removes zero additional duplicate rows.  (That
proviso is forced, and guards only the duplicate count: the first run's
null replacements can collapse two distinct input rows into equal output
rows, as the counterexample shows.) -/
theorem pipeline_second_run_spec (dict : List (String × List (String × String)))
    (d : Dataset) (r1 : RefineResult)
    (h1 : refinePipeline dict d = Except.ok r1) :
    ∃ r2 : RefineResult, refinePipeline [] r1.df = Except.ok r2 ∧
      r2.inadmissibleReports = [] ∧
      (r1.df.rows.Nodup → r2.duplicatesRemoved = 0) := by
  have hfacts : hoursCol ∈ r1.df.cols ∧
      ∀ v ∈ getCol r1.df hoursCol, isStr v = false := by
    simp only [refinePipeline] at h1
    split at h1
    · exact Except.noConfusion h1
    · split at h1
      · exact Except.noConfusion h1
      · rename_i d5 n heq2
        have hspec := outlierStep_ok_spec _ (d5, n) heq2
        have hnostr := isStr_false_of_countOutliersE_ok _ n hspec.2.2.1
        have hcols5 : d5.cols = _ := hspec.2.1
        cases Except.ok.inj h1
        refine ⟨?_, ?_⟩
        · show hoursCol ∈ d5.cols
          rw [hcols5]
          exact hspec.1
        · show ∀ v ∈ getCol d5 hoursCol, isStr v = false
          rcases hspec.2.2.2 with hsame | hflag
          · have hsame5 : d5 = _ := hsame
            intro v hv
            rw [hsame5] at hv
            exact hnostr v hv
          · have hflag5 : d5 = _ := hflag
            intro v hv
            rw [hflag5, getCol_mapColCells_self _ hoursCol flagCell rfl] at hv
            rcases List.mem_map.mp hv with ⟨u, hu, rfl⟩
            exact isStr_flagCell u (hnostr u hu)
  obtain ⟨hmem, hstr1⟩ := hfacts
  have hmem3 : hoursCol ∈ (sentinelReplace (normalizeData
      ({ r1.df with rows := dropDuplicates r1.df.rows } : Dataset))).cols := hmem
  have hstr2 : ∀ v ∈ getCol
      ({ r1.df with rows := dropDuplicates r1.df.rows } : Dataset) hoursCol,
      isStr v = false := by
    intro v hv
    exact hstr1 v (getCol_mem_of_rows_sublist r1.df _
      (dropDupAux_sublist [] r1.df.rows) hoursCol v hv)
  have hstrN : ∀ v ∈ getCol (normalizeData
      ({ r1.df with rows := dropDuplicates r1.df.rows } : Dataset)) hoursCol,
      isStr v = false := by
    rcases getCol_normalizeData
        ({ r1.df with rows := dropDuplicates r1.df.rows } : Dataset) hoursCol hmem
      with hmap | hid
    · rw [hmap]
      intro v hv
      rcases List.mem_map.mp hv with ⟨u, _, rfl⟩
      exact isStr_castCell u
    · rw [hid]
      exact hstr2
  have hstr3 : ∀ v ∈ getCol (sentinelReplace (normalizeData
      ({ r1.df with rows := dropDuplicates r1.df.rows } : Dataset))) hoursCol,
      isStr v = false := by
    rw [getCol_sentinelReplace]
    intro v hv
    rcases List.mem_map.mp hv with ⟨u, hu, rfl⟩
    exact isStr_replaceCell u (hstrN u hu)
  have hdups0 : r1.df.rows.Nodup → duplicatesRemovedCount r1.df.rows = 0 := by
    intro h2
    unfold duplicatesRemovedCount
    rw [dropDuplicates_of_nodup _ h2]
    exact Nat.sub_self _
  simp only [refinePipeline, codeValidate, validateLoop]
  rw [outlierStep_of_noStr _ hmem3 hstr3]
  by_cases hn : 0 < countOutliers (getCol (sentinelReplace (normalizeData
      ({ r1.df with rows := dropDuplicates r1.df.rows } : Dataset))) hoursCol)
  · rw [if_pos hn]
    exact ⟨RefineResult.mk _ (duplicatesRemovedCount r1.df.rows) [] _, rfl, rfl, hdups0⟩
  · rw [if_neg hn]
    exact ⟨RefineResult.mk _ (duplicatesRemovedCount r1.df.rows) [] _, rfl, rfl, hdups0⟩

/-- C9 witness: the amended theorem evaluated on a one-row table that the
pipeline leaves unchanged. -/
theorem pipeline_second_run_witness :
    ∃ r2 : RefineResult,
      refinePipeline []
        (RefineResult.mk (Dataset.mk [hoursCol] [[Value.num 5]]) 0 [] 0).df =
        Except.ok r2 ∧
      r2.inadmissibleReports = [] ∧
      ((RefineResult.mk (Dataset.mk [hoursCol] [[Value.num 5]]) 0 [] 0).df.rows.Nodup →
        r2.duplicatesRemoved = 0) :=
  pipeline_second_run_spec [] (Dataset.mk [hoursCol] [[Value.num 5]])
    (RefineResult.mk (Dataset.mk [hoursCol] [[Value.num 5]]) 0 [] 0) (by decide)

end Refine
